import Mathlib

/-!
Verification of `list_zip_archive` from `Sources/CShims/shims.c` (ZipReader).

The C function drives an external archive-reading library (minizip) through a
cursor protocol: position at the first entry, then repeatedly fetch the current
entry's metadata, print one formatted line, and advance, until the library
signals `MZ_END_OF_LIST` or an error.  The library is an external collaborator:
we model one run of the function as a pure function of the collaborator's
responses (a trace), exactly mirroring the C control flow and the text each
`printf` call emits (one output list element per `printf`, newline dropped).
-/

namespace ZipReader

/-- Modelled from the spec: collaborator status code `OK` (minizip `MZ_OK`,
declared in `mz.h`, which is outside `src/`).  Concrete value as in minizip. -/
def MZ_OK : Int := 0

/-- Modelled from the spec: collaborator status code `END_OF_LIST`
(minizip `MZ_END_OF_LIST`, declared in `mz.h`, outside `src/`). -/
def MZ_END_OF_LIST : Int := -100

/-- Modelled from the spec: the encrypted-flag bit of the flags word
(minizip `MZ_ZIP_FLAG_ENCRYPTED`, bit 0, declared outside `src/`). -/
def MZ_ZIP_FLAG_ENCRYPTED : Nat := 1

/-- Modelled from the spec: compression method code for Store (= 0). -/
def MZ_COMPRESS_METHOD_STORE : Nat := 0

/-- Modelled from the spec: compression method code for Deflate (= 8). -/
def MZ_COMPRESS_METHOD_DEFLATE : Nat := 8

/-- Modelled from the spec: compression method code for BZip2 (= 12). -/
def MZ_COMPRESS_METHOD_BZIP2 : Nat := 12

/-- Modelled from the spec: compression method code for LZMA (= 14). -/
def MZ_COMPRESS_METHOD_LZMA : Nat := 14

/-- The fields of minizip's `mz_zip_file` that `list_zip_archive` reads.
Sizes are `int64_t` in C but non-negative per the data model, so we use `Nat`;
`flag`, `compression_method` are `uint16_t`, `external_fa` and `crc` are
`uint32_t`, all represented as their non-negative values. -/
structure MzZipFile where
  compressed_size : Nat
  uncompressed_size : Nat
  flag : Nat
  compression_method : Nat
  external_fa : Nat
  crc : Nat
  modified_date : Nat
  filename : String
deriving DecidableEq

/-- The fields of `struct tm` that the listing reads after
`mz_zip_time_t_to_tm` (an external decoder).  The C code casts each field to
`uint32_t` before printing; the cast is applied in `formatRow`. -/
structure Tm where
  tm_mon : Nat
  tm_mday : Nat
  tm_year : Nat
  tm_hour : Nat
  tm_min : Nat
deriving DecidableEq

/-- One loop iteration's worth of collaborator responses:
either `mz_zip_reader_entry_get_info` fails with `code` (≠ `MZ_OK`), or it
succeeds with metadata `info` and the subsequent
`mz_zip_reader_goto_next_entry` returns `next`. -/
inductive Step where
  | fetchFail (code : Int)
  | fetchOk (info : MzZipFile) (next : Int)
deriving DecidableEq

/-- All collaborator responses for one run: the status of
`mz_zip_reader_goto_first_entry`, the per-iteration responses, and the
(pure, external) timestamp decoder `mz_zip_time_t_to_tm`. -/
structure Trace where
  first : Int
  steps : List Step
  decode : Nat → Tm

/-- Observable outcome of one run: the lines printed to stdout (one per
`printf`, in order, without the trailing newline), the `int32_t` return
value, and whether `mz_zip_reader_delete` was called on the handle. -/
structure ListRun where
  output : List String
  ret : Int
  readerDeleted : Bool
deriving DecidableEq

/-- printf left-space-padding to a minimum field width (`%12d`, `%3u`, `%6s`,
`%8x`). -/
def padLeft (w : Nat) (s : String) : String :=
  String.mk (List.replicate (w - s.length) ' ') ++ s

/-- printf zero-padding via a precision (`%2.2u`, `%8.8x`): at least `w`
digits, zero-filled. -/
def zeroPad (w : Nat) (s : String) : String :=
  String.mk (List.replicate (w - s.length) '0') ++ s

/-- Lowercase hexadecimal rendering, as printf `%x`. -/
def hexStr (n : Nat) : String := String.mk (Nat.toDigits 16 n)

/-- The value of a C `uint32_t` cast. -/
def u32 (n : Nat) : Nat := n % 4294967296

/-- shims.c lines 45-47: `ratio = 0; if (uncompressed_size > 0) ratio =
(uint32_t)((compressed_size * 100) / uncompressed_size);`. -/
def ratioOf (fi : MzZipFile) : Nat :=
  if fi.uncompressed_size > 0 then
    u32 (fi.compressed_size * 100 / fi.uncompressed_size)
  else 0

/-- shims.c lines 50-53: `'*'` if the encrypted bit of `flag` is set, else a
space. -/
def cryptChar (flag : Nat) : String :=
  if flag &&& MZ_ZIP_FLAG_ENCRYPTED ≠ 0 then "*" else " "

/-- shims.c lines 55-79: the `switch` on `compression_method`; for Deflate,
`level = (int16_t)((flag & 0x6) / 2)`. -/
def methodLabel (method flag : Nat) : String :=
  if method = MZ_COMPRESS_METHOD_STORE then "Stored"
  else if method = MZ_COMPRESS_METHOD_DEFLATE then
    let level := (flag &&& 6) / 2
    if level = 0 then "Defl:N"
    else if level = 1 then "Defl:X"
    else if level = 2 ∨ level = 3 then "Defl:F"
    else "Defl:?"
  else if method = MZ_COMPRESS_METHOD_BZIP2 then "BZip2"
  else if method = MZ_COMPRESS_METHOD_LZMA then "LZMA"
  else "?"

/-- The claim-side 2-bit sub-level extraction `(flags >> 1) & 0x3` (spec
section 9). -/
def deflateSubLevel (flag : Nat) : Nat := (flag >>> 1) &&& 3

/-- shims.c line 26: the diagnostic printed when first-positioning fails. -/
def errFirstLine (code : Int) : String :=
  "Error " ++ toString code ++ " going to first entry in archive"

/-- shims.c line 41: the diagnostic printed when the metadata fetch fails. -/
def errInfoLine (code : Int) : String :=
  "Error " ++ toString code ++ " getting entry info in archive"

/-- shims.c line 97: the diagnostic printed when advancing fails. -/
def errNextLine (code : Int) : String :=
  "Error " ++ toString code ++ " going to next entry in archive"

/-- shims.c line 31: first header line (column titles). -/
def headerLine1 : String :=
  "      Packed     Unpacked Ratio Method   Attribs Date     Time  CRC-32     Name"

/-- shims.c line 32: second header line (dashed separator). -/
def headerLine2 : String :=
  "      ------     -------- ----- ------   ------- ----     ----  ------     ----"

/-- shims.c lines 84-91: the per-entry `printf`.  Format string
`%12PRId64 %12PRId64  %3PRIu32%% %6s%c %8PRIx32 %2.2PRIu32-%2.2PRIu32-%2.2PRIu32
%2.2PRIu32:%2.2PRIu32 %8.8PRIx32   %s`; the `tm` fields are cast to `uint32_t`
(month gets `+ 1` after the cast, the year is reduced `% 100`). -/
def formatRow (decode : Nat → Tm) (fi : MzZipFile) : String :=
  let d := decode fi.modified_date
  padLeft 12 (toString fi.compressed_size) ++ " " ++
  padLeft 12 (toString fi.uncompressed_size) ++ "  " ++
  padLeft 3 (toString (ratioOf fi)) ++ "% " ++
  padLeft 6 (methodLabel fi.compression_method fi.flag) ++
  cryptChar fi.flag ++ " " ++
  padLeft 8 (hexStr fi.external_fa) ++ " " ++
  zeroPad 2 (toString (u32 (u32 d.tm_mon + 1))) ++ "-" ++
  zeroPad 2 (toString (u32 d.tm_mday)) ++ "-" ++
  zeroPad 2 (toString (u32 d.tm_year % 100)) ++ " " ++
  zeroPad 2 (toString (u32 d.tm_hour)) ++ ":" ++
  zeroPad 2 (toString (u32 d.tm_min)) ++ " " ++
  zeroPad 8 (hexStr fi.crc) ++ "   " ++ fi.filename

/-- shims.c lines 35-101, the `do { ... } while (err == MZ_OK)` loop, as a
function of the remaining per-iteration collaborator responses.  Returns the
lines printed by the loop body and the value of `err` on loop exit, or `none`
when the trace does not contain enough responses to reach loop exit (the real
loop would query the collaborator again). -/
def loopRun (decode : Nat → Tm) : List Step → Option (List String × Int)
  | [] => none
  | Step.fetchFail code :: _ => some ([errInfoLine code], code)
  | Step.fetchOk fi next :: rest =>
    if next = MZ_OK then
      (loopRun decode rest).map (fun p => (formatRow decode fi :: p.1, p.2))
    else if next = MZ_END_OF_LIST then
      some ([formatRow decode fi], MZ_END_OF_LIST)
    else
      some ([formatRow decode fi, errNextLine next], next)

/-- shims.c lines 12-107, the whole of `list_zip_archive`, as a function of
the collaborator trace.  Mirrors the source: if first-positioning returns a
code other than `MZ_OK`/`MZ_END_OF_LIST`, print one diagnostic, delete the
reader, return the code; otherwise print the two header lines, run the
do-while loop (entered even when `first = MZ_END_OF_LIST`), and finally map a
terminal `err = MZ_END_OF_LIST` to `MZ_OK`. -/
def list_zip_archive (t : Trace) : Option ListRun :=
  if t.first ≠ MZ_OK ∧ t.first ≠ MZ_END_OF_LIST then
    some { output := [errFirstLine t.first], ret := t.first, readerDeleted := true }
  else
    (loopRun t.decode t.steps).map (fun p =>
      { output := headerLine1 :: headerLine2 :: p.1,
        ret := if p.2 = MZ_END_OF_LIST then MZ_OK else p.2,
        readerDeleted := false })

/-- The metadata snapshots successfully fetched (hence printed as rows)
before the loop terminates, in order. -/
def fetchedInfos : List Step → List MzZipFile
  | [] => []
  | Step.fetchFail _ :: _ => []
  | Step.fetchOk fi next :: rest =>
    fi :: (if next = MZ_OK then fetchedInfos rest else [])

/-- The diagnostic lines the loop prints: empty on a clean `END_OF_LIST`
exit, one line on a fetch or advance failure. -/
def diagLines : List Step → List String
  | [] => []
  | Step.fetchFail code :: _ => [errInfoLine code]
  | Step.fetchOk _ next :: rest =>
    if next = MZ_OK then diagLines rest
    else if next = MZ_END_OF_LIST then []
    else [errNextLine next]

/-- The per-iteration trace of a run whose first `n` fetches succeed and are
each followed by a successful advance. -/
def okSteps (infos : List MzZipFile) : List Step :=
  infos.map (fun fi => Step.fetchOk fi MZ_OK)

/-- A fixed trivial timestamp decoder used for concrete evaluations. -/
def decodeZero : Nat → Tm := fun _ => ⟨0, 0, 0, 0, 0⟩

/-! ### Helper lemmas -/

/-- The source's `(flag & 0x6) / 2` equals the spec's `(flag >> 1) & 0x3`. -/
theorem and_six_div_two (x : Nat) : (x &&& 6) / 2 = (x >>> 1) &&& 3 := by
  have h7 : x &&& 7 = x % 8 := by
    have h := Nat.and_pow_two_sub_one_eq_mod x 3
    norm_num at h
    exact h
  have h3 : (x >>> 1) &&& 3 = x / 2 % 4 := by
    rw [Nat.shiftRight_eq_div_pow]
    have h := Nat.and_pow_two_sub_one_eq_mod (x / 2 ^ 1) 2
    norm_num at h
    norm_num
    exact h
  have h6 : x &&& 6 = x % 8 &&& 6 := by
    have h76 : (7 : Nat) &&& 6 = 6 := by decide
    rw [← h7, Nat.and_assoc, h76]
  have key : ∀ y : Nat, y < 8 → (y &&& 6) / 2 = y / 2 % 4 := by decide
  rw [h6, h3, key (x % 8) (Nat.mod_lt _ (by norm_num))]
  omega

/-- The loop's printed lines decompose into one row per fetched entry
followed by the diagnostic lines. -/
theorem loopRun_output (decode : Nat → Tm) :
    ∀ (steps : List Step) (p : List String × Int),
      loopRun decode steps = some p →
      p.1 = (fetchedInfos steps).map (formatRow decode) ++ diagLines steps := by
  intro steps
  induction steps with
  | nil => intro p h; simp [loopRun] at h
  | cons s rest ih =>
    intro p h
    cases s with
    | fetchFail code =>
      simp [loopRun] at h
      rw [← h]
      simp [fetchedInfos, diagLines]
    | fetchOk fi next =>
      by_cases h1 : next = MZ_OK
      · rw [loopRun, if_pos h1] at h
        cases h2 : loopRun decode rest with
        | none => rw [h2] at h; simp at h
        | some q =>
          rw [h2] at h
          simp at h
          rw [← h]
          simp [fetchedInfos, diagLines, if_pos h1, ih q h2]
      · by_cases h2 : next = MZ_END_OF_LIST
        · rw [loopRun, if_neg h1, if_pos h2] at h
          simp at h
          rw [← h]
          simp [fetchedInfos, diagLines, if_neg h1, if_pos h2]
        · rw [loopRun, if_neg h1, if_neg h2] at h
          simp at h
          rw [← h]
          simp [fetchedInfos, diagLines, if_neg h1, if_neg h2]

/-- The loop never prints more than one diagnostic line. -/
theorem diagLines_length_le_one : ∀ steps : List Step, (diagLines steps).length ≤ 1 := by
  intro steps
  induction steps with
  | nil => simp [diagLines]
  | cons s rest ih =>
    cases s with
    | fetchFail code => simp [diagLines]
    | fetchOk fi next =>
      by_cases h1 : next = MZ_OK
      · simpa [diagLines, if_pos h1] using ih
      · by_cases h2 : next = MZ_END_OF_LIST
        · simp [diagLines, if_neg h1, if_pos h2]
        · simp [diagLines, if_neg h1, if_neg h2]

/-- Running the loop after `n` successful fetch-and-advance iterations
prepends the corresponding rows and leaves the exit status unchanged. -/
theorem loopRun_okSteps (decode : Nat → Tm) (infos : List MzZipFile) (rest : List Step) :
    loopRun decode (okSteps infos ++ rest) =
      (loopRun decode rest).map
        (fun p => (infos.map (formatRow decode) ++ p.1, p.2)) := by
  induction infos with
  | nil =>
    simp only [okSteps, List.map_nil, List.nil_append]
    cases loopRun decode rest <;> rfl
  | cons fi infos ih =>
    simp only [okSteps, List.map_cons, List.cons_append]
    rw [loopRun, if_pos rfl]
    show (loopRun decode (okSteps infos ++ rest)).map _ = _
    rw [ih]
    cases loopRun decode rest <;> rfl

/-- A first status of `MZ_OK` or `MZ_END_OF_LIST` proceeds past the
first-position check into headers plus loop. -/
theorem list_zip_archive_first_allowed (t : Trace)
    (h : t.first = MZ_OK ∨ t.first = MZ_END_OF_LIST) :
    list_zip_archive t =
      (loopRun t.decode t.steps).map (fun p =>
        { output := headerLine1 :: headerLine2 :: p.1,
          ret := if p.2 = MZ_END_OF_LIST then MZ_OK else p.2,
          readerDeleted := false }) := by
  rw [list_zip_archive, if_neg]
  intro hc
  rcases h with h | h
  · exact hc.1 h
  · exact hc.2 h

/-- On a first-position status other than `MZ_OK`/`MZ_END_OF_LIST`, the run
prints exactly the one diagnostic, deletes the reader, and returns the code. -/
theorem run_position_failure (t : Trace)
    (h1 : t.first ≠ MZ_OK) (h2 : t.first ≠ MZ_END_OF_LIST) :
    list_zip_archive t =
      some { output := [errFirstLine t.first], ret := t.first, readerDeleted := true } := by
  rw [list_zip_archive, if_pos ⟨h1, h2⟩]

/-- Composition: a run whose first `n` iterations fetch and advance
successfully is the run on the remaining trace with the `n` rows prepended. -/
theorem run_okSteps_then (decode : Nat → Tm) (infos : List MzZipFile) (rest : List Step) :
    list_zip_archive ⟨MZ_OK, okSteps infos ++ rest, decode⟩ =
      (loopRun decode rest).map (fun p =>
        { output := headerLine1 :: headerLine2 :: (infos.map (formatRow decode) ++ p.1),
          ret := if p.2 = MZ_END_OF_LIST then MZ_OK else p.2,
          readerDeleted := false }) := by
  rw [list_zip_archive_first_allowed ⟨MZ_OK, okSteps infos ++ rest, decode⟩ (Or.inl rfl)]
  show (loopRun decode (okSteps infos ++ rest)).map _ = _
  rw [loopRun_okSteps]
  cases loopRun decode rest <;> rfl

/-- The Deflate arm of the label table, phrased with the spec's sub-level
extraction `(flags >> 1) & 0x3`. -/
theorem methodLabel_deflate (flag : Nat) :
    methodLabel MZ_COMPRESS_METHOD_DEFLATE flag =
      if deflateSubLevel flag = 0 then "Defl:N"
      else if deflateSubLevel flag = 1 then "Defl:X"
      else if deflateSubLevel flag = 2 ∨ deflateSubLevel flag = 3 then "Defl:F"
      else "Defl:?" := by
  rw [methodLabel, if_neg (by decide), if_pos rfl]
  simp only [deflateSubLevel, ← and_six_div_two]

/-! ### Claim theorems -/

/-- C5: for every entry, the displayed ratio is 0 when the uncompressed size
is 0 (regardless of the compressed size, with no division error), and is
`floor(compressedSize * 100 / uncompressedSize)` when the uncompressed size is
positive — unclamped, reduced only by the `uint32_t` cast. -/
theorem ratioPercent_formula (fi : MzZipFile) :
    ratioOf fi =
      if fi.uncompressed_size = 0 then 0
      else fi.compressed_size * 100 / fi.uncompressed_size % 4294967296 := by
  rw [ratioOf, u32]
  rcases Nat.eq_zero_or_pos fi.uncompressed_size with h | h
  · rw [if_neg (by omega), if_pos h]
  · rw [if_pos h, if_neg (by omega)]

/-- C6: the method label matches the section 4.1.d table exactly: Store →
"Stored"; Deflate with sub-level 0/1/2-or-3/other → "Defl:N"/"Defl:X"/
"Defl:F"/"Defl:?"; BZip2 → "BZip2"; LZMA → "LZMA"; any other method → "?". -/
theorem methodLabel_matches_table (flag m : Nat) :
    methodLabel MZ_COMPRESS_METHOD_STORE flag = "Stored" ∧
    (deflateSubLevel flag = 0 → methodLabel MZ_COMPRESS_METHOD_DEFLATE flag = "Defl:N") ∧
    (deflateSubLevel flag = 1 → methodLabel MZ_COMPRESS_METHOD_DEFLATE flag = "Defl:X") ∧
    (deflateSubLevel flag = 2 ∨ deflateSubLevel flag = 3 →
       methodLabel MZ_COMPRESS_METHOD_DEFLATE flag = "Defl:F") ∧
    methodLabel MZ_COMPRESS_METHOD_BZIP2 flag = "BZip2" ∧
    methodLabel MZ_COMPRESS_METHOD_LZMA flag = "LZMA" ∧
    (m ≠ MZ_COMPRESS_METHOD_STORE → m ≠ MZ_COMPRESS_METHOD_DEFLATE →
     m ≠ MZ_COMPRESS_METHOD_BZIP2 → m ≠ MZ_COMPRESS_METHOD_LZMA →
     methodLabel m flag = "?") := by
  refine ⟨?_, ?_, ?_, ?_, ?_, ?_, ?_⟩
  · rw [methodLabel, if_pos rfl]
  · intro h
    rw [methodLabel_deflate, if_pos h]
  · intro h
    rw [methodLabel_deflate, if_neg (by omega), if_pos h]
  · intro h
    rw [methodLabel_deflate, if_neg (by omega), if_neg (by omega), if_pos h]
  · rw [methodLabel, if_neg (by decide), if_neg (by decide), if_pos rfl]
  · rw [methodLabel, if_neg (by decide), if_neg (by decide), if_neg (by decide), if_pos rfl]
  · intro h0 h8 h12 h14
    rw [methodLabel, if_neg h0, if_neg h8, if_neg h12, if_neg h14]

/-- Witness for C6 at concrete method codes, flag words and a future method
code (93 = zstd). -/
theorem methodLabel_matches_table_witness :
    methodLabel MZ_COMPRESS_METHOD_STORE 5 = "Stored" ∧
    methodLabel MZ_COMPRESS_METHOD_DEFLATE 0 = "Defl:N" ∧
    methodLabel MZ_COMPRESS_METHOD_DEFLATE 2 = "Defl:X" ∧
    methodLabel MZ_COMPRESS_METHOD_DEFLATE 4 = "Defl:F" ∧
    methodLabel MZ_COMPRESS_METHOD_DEFLATE 6 = "Defl:F" ∧
    methodLabel MZ_COMPRESS_METHOD_BZIP2 0 = "BZip2" ∧
    methodLabel MZ_COMPRESS_METHOD_LZMA 0 = "LZMA" ∧
    methodLabel 93 0 = "?" :=
  ⟨(methodLabel_matches_table 5 93).1,
   (methodLabel_matches_table 0 93).2.1 (by decide),
   (methodLabel_matches_table 2 93).2.2.1 (by decide),
   (methodLabel_matches_table 4 93).2.2.2.1 (Or.inl (by decide)),
   (methodLabel_matches_table 6 93).2.2.2.1 (Or.inr (by decide)),
   (methodLabel_matches_table 0 93).2.2.2.2.1,
   (methodLabel_matches_table 0 93).2.2.2.2.2.1,
   (methodLabel_matches_table 0 93).2.2.2.2.2.2 (by decide) (by decide) (by decide) (by decide)⟩

/-- C9: for every flags word, the extracted deflate sub-level
`(flags >> 1) & 0x3` lies in `{0, 1, 2, 3}`, so for method Deflate the
defensive `"Defl:?"` label is never produced. -/
theorem deflate_sublevel_in_range (flag : Nat) :
    (deflateSubLevel flag = 0 ∨ deflateSubLevel flag = 1 ∨
     deflateSubLevel flag = 2 ∨ deflateSubLevel flag = 3) ∧
    methodLabel MZ_COMPRESS_METHOD_DEFLATE flag ≠ "Defl:?" := by
  have hle : deflateSubLevel flag ≤ 3 := Nat.and_le_right
  have h4 : deflateSubLevel flag = 0 ∨ deflateSubLevel flag = 1 ∨
      deflateSubLevel flag = 2 ∨ deflateSubLevel flag = 3 := by omega
  refine ⟨h4, ?_⟩
  rw [methodLabel_deflate]
  rcases h4 with h | h | h | h <;> rw [h] <;> decide

/-- C10: the listing is deterministic — two runs given identical collaborator
responses (first-position status, per-iteration responses, timestamp decoder)
produce identical output and results. -/
theorem run_deterministic_in_trace (t1 t2 : Trace)
    (hf : t1.first = t2.first) (hs : t1.steps = t2.steps)
    (hd : t1.decode = t2.decode) :
    list_zip_archive t1 = list_zip_archive t2 := by
  cases t1
  cases t2
  simp only at hf hs hd
  subst hf
  subst hs
  subst hd
  rfl

/-- Witness for C10 on a concrete pair of equal traces. -/
theorem run_deterministic_in_trace_witness :
    list_zip_archive ⟨MZ_OK, [], decodeZero⟩ = list_zip_archive ⟨MZ_OK, [], decodeZero⟩ :=
  run_deterministic_in_trace ⟨MZ_OK, [], decodeZero⟩ ⟨MZ_OK, [], decodeZero⟩ rfl rfl rfl

/-- A sample entry (Store method, unencrypted) used for concrete runs. -/
def sampleEntry : MzZipFile := ⟨50, 200, 0, 0, 0, 0, 0, "a.txt"⟩

/-- C1: evaluation at the failing input.  For an empty archive
(first-positioning returns `MZ_END_OF_LIST`) the claim demands exactly the two
header lines and a success result; but the `do`-`while` loop body runs anyway
and calls the metadata fetch, here answering `MZ_PARAM_ERROR` (-102) since no
entry is current: the run prints a third (diagnostic) line and returns -102,
not success. -/
theorem empty_archive_enters_loop_bug :
    list_zip_archive ⟨MZ_END_OF_LIST, [Step.fetchFail (-102)], decodeZero⟩ =
      some ⟨[headerLine1, headerLine2, errInfoLine (-102)], -102, false⟩ ∧
    [headerLine1, headerLine2, errInfoLine (-102)] ≠ [headerLine1, headerLine2] ∧
    (-102 : Int) ≠ MZ_OK := by
  refine ⟨rfl, by decide, by decide⟩

/-- C2 counterexample: on a first-positioning failure (-102) the run's output
is a single diagnostic line — neither header line has been emitted, refuting
the claim that header emission is unconditional and precedes the check. -/
theorem position_failure_headers_not_emitted :
    list_zip_archive ⟨-102, [], decodeZero⟩ =
      some ⟨[errFirstLine (-102)], -102, true⟩ ∧
    headerLine1 ∉ [errFirstLine (-102)] ∧
    headerLine2 ∉ [errFirstLine (-102)] := by
  refine ⟨rfl, by decide, by decide⟩

/-- C2 amended: when first-positioning returns a code other than `MZ_OK` and
`MZ_END_OF_LIST`, the run prints exactly one diagnostic line (no header lines,
no entry rows), deletes the reader, and returns that collaborator status
code. -/
theorem position_failure_prints_single_diagnostic (t : Trace)
    (h1 : t.first ≠ MZ_OK) (h2 : t.first ≠ MZ_END_OF_LIST) :
    list_zip_archive t =
      some { output := [errFirstLine t.first], ret := t.first, readerDeleted := true } :=
  run_position_failure t h1 h2

/-- Witness for C2 (amended) at the concrete status -103. -/
theorem position_failure_prints_single_diagnostic_witness :
    list_zip_archive ⟨-103, [], decodeZero⟩ =
      some ⟨[errFirstLine (-103)], -103, true⟩ :=
  position_failure_prints_single_diagnostic ⟨-103, [], decodeZero⟩ (by decide) (by decide)

/-- C3 counterexample: on a first-positioning failure the code calls
`mz_zip_reader_delete(&reader)` on the caller-owned handle, refuting the claim
that the handle is never destroyed on any path. -/
theorem position_failure_deletes_reader :
    (list_zip_archive ⟨-104, [], decodeZero⟩).map ListRun.readerDeleted = some true := rfl

/-- C3 amended: the reader handle is deleted exactly on the
first-positioning-failure path; on every run whose first-positioning status is
`MZ_OK` or `MZ_END_OF_LIST` (success, fetch failure, advance failure alike)
the handle is never deleted. -/
theorem reader_deleted_iff_position_failure (t : Trace) (r : ListRun)
    (h : list_zip_archive t = some r) :
    r.readerDeleted = true ↔ (t.first ≠ MZ_OK ∧ t.first ≠ MZ_END_OF_LIST) := by
  by_cases hc : t.first ≠ MZ_OK ∧ t.first ≠ MZ_END_OF_LIST
  · rw [list_zip_archive, if_pos hc] at h
    simp only [Option.some.injEq] at h
    rw [← h]
    simpa using hc
  · rw [list_zip_archive, if_neg hc] at h
    cases hl : loopRun t.decode t.steps with
    | none => rw [hl] at h; simp at h
    | some p =>
      rw [hl] at h
      simp only [Option.map_some', Option.some.injEq] at h
      rw [← h]
      simpa using hc

/-- Witness for C3 (amended) at a concrete failing run. -/
theorem reader_deleted_iff_position_failure_witness :
    (⟨[errFirstLine (-105)], -105, true⟩ : ListRun).readerDeleted = true ↔
      ((-105 : Int) ≠ MZ_OK ∧ (-105 : Int) ≠ MZ_END_OF_LIST) :=
  reader_deleted_iff_position_failure ⟨-105, [], decodeZero⟩ ⟨[errFirstLine (-105)], -105, true⟩ rfl

/-- C4 counterexample: a run whose first metadata fetch fails (-103) prints a
third line that is neither a header line nor an entry row (zero entries were
enumerated), refuting the claim that the output is exactly the headers plus
one row per entry, with nothing else, on every path. -/
theorem fetch_error_line_beyond_headers :
    list_zip_archive ⟨MZ_OK, [Step.fetchFail (-103)], decodeZero⟩ =
      some ⟨[headerLine1, headerLine2, errInfoLine (-103)], -103, false⟩ ∧
    fetchedInfos [Step.fetchFail (-103)] = [] ∧
    errInfoLine (-103) ∉ [headerLine1, headerLine2] := by
  refine ⟨rfl, rfl, by decide⟩

/-- C4 amended: on every completed run, if first-positioning fails the output
is exactly one diagnostic line; otherwise it is the two header lines, then one
formatted row per successfully fetched entry in enumeration order, then at
most one trailing diagnostic line (present exactly on fetch/advance
failure). -/
theorem output_is_headers_rows_diag (t : Trace) (r : ListRun)
    (h : list_zip_archive t = some r) :
    ((t.first = MZ_OK ∨ t.first = MZ_END_OF_LIST) →
       r.output = headerLine1 :: headerLine2 ::
         ((fetchedInfos t.steps).map (formatRow t.decode) ++ diagLines t.steps) ∧
       (diagLines t.steps).length ≤ 1) ∧
    (¬(t.first = MZ_OK ∨ t.first = MZ_END_OF_LIST) →
       r.output = [errFirstLine t.first]) := by
  constructor
  · intro hok
    rw [list_zip_archive_first_allowed t hok] at h
    cases hl : loopRun t.decode t.steps with
    | none => rw [hl] at h; simp at h
    | some p =>
      rw [hl] at h
      simp only [Option.map_some', Option.some.injEq] at h
      refine ⟨?_, diagLines_length_le_one t.steps⟩
      rw [← h]
      simp only
      rw [loopRun_output t.decode t.steps p hl]
  · intro hbad
    have h1 : t.first ≠ MZ_OK := fun he => hbad (Or.inl he)
    have h2 : t.first ≠ MZ_END_OF_LIST := fun he => hbad (Or.inr he)
    rw [run_position_failure t h1 h2] at h
    simp only [Option.some.injEq] at h
    rw [← h]

/-- Witness for C4 (amended) on a concrete successful one-entry run. -/
theorem output_is_headers_rows_diag_witness :
    ((MZ_OK = MZ_OK ∨ MZ_OK = MZ_END_OF_LIST) →
       ([headerLine1, headerLine2, formatRow decodeZero sampleEntry] : List String) =
         headerLine1 :: headerLine2 ::
           ((fetchedInfos [Step.fetchOk sampleEntry MZ_END_OF_LIST]).map (formatRow decodeZero) ++
            diagLines [Step.fetchOk sampleEntry MZ_END_OF_LIST]) ∧
       (diagLines [Step.fetchOk sampleEntry MZ_END_OF_LIST]).length ≤ 1) ∧
    (¬(MZ_OK = MZ_OK ∨ MZ_OK = MZ_END_OF_LIST) →
       ([headerLine1, headerLine2, formatRow decodeZero sampleEntry] : List String) =
         [errFirstLine MZ_OK]) :=
  output_is_headers_rows_diag
    ⟨MZ_OK, [Step.fetchOk sampleEntry MZ_END_OF_LIST], decodeZero⟩
    ⟨[headerLine1, headerLine2, formatRow decodeZero sampleEntry], MZ_OK, false⟩ rfl

/-- C7 counterexample: entries fetched OK then a metadata fetch "failure"
whose status code happens to be `MZ_END_OF_LIST` (-100): the diagnostic line
is printed, yet the final check converts `err = MZ_END_OF_LIST` to `MZ_OK`, so
the run returns success instead of a failure carrying that code. -/
theorem fetch_eol_code_returns_success :
    list_zip_archive
        ⟨MZ_OK, [Step.fetchOk sampleEntry MZ_OK, Step.fetchFail MZ_END_OF_LIST], decodeZero⟩ =
      some ⟨[headerLine1, headerLine2, formatRow decodeZero sampleEntry,
             errInfoLine MZ_END_OF_LIST], MZ_OK, false⟩ ∧
    MZ_OK ≠ MZ_END_OF_LIST ∧ MZ_OK = (0 : Int) := by
  refine ⟨rfl, by decide, rfl⟩

/-- C7 amended: when the metadata fetch fails on entry `k` with status `c`
(entries `1..k-1` fetched and advanced successfully), the run prints exactly
the rows for entries `1..k-1` plus one diagnostic line, consumes no further
collaborator responses (the trace tail is ignored), and returns `c` — except
that `c = MZ_END_OF_LIST` is converted to a success return by the final
check. -/
theorem fetch_failure_prints_prefix_rows (decode : Nat → Tm)
    (infos : List MzZipFile) (c : Int) (rest : List Step) (_hc : c ≠ MZ_OK) :
    list_zip_archive ⟨MZ_OK, okSteps infos ++ Step.fetchFail c :: rest, decode⟩ =
      some { output := headerLine1 :: headerLine2 ::
                         (infos.map (formatRow decode) ++ [errInfoLine c]),
             ret := if c = MZ_END_OF_LIST then MZ_OK else c,
             readerDeleted := false } := by
  rw [run_okSteps_then, loopRun]
  rfl

/-- Witness for C7 (amended): a fetch failure (-102) on the second of three
entries yields exactly one data row, the diagnostic, and returns -102. -/
theorem fetch_failure_prints_prefix_rows_witness :
    list_zip_archive
        ⟨MZ_OK, okSteps [sampleEntry] ++
                  Step.fetchFail (-102) :: [Step.fetchOk sampleEntry MZ_OK], decodeZero⟩ =
      some { output := headerLine1 :: headerLine2 ::
                         ([sampleEntry].map (formatRow decodeZero) ++ [errInfoLine (-102)]),
             ret := if (-102 : Int) = MZ_END_OF_LIST then MZ_OK else (-102 : Int),
             readerDeleted := false } :=
  fetch_failure_prints_prefix_rows decodeZero [sampleEntry] (-102)
    [Step.fetchOk sampleEntry MZ_OK] (by decide)

/-- C8: after a successful fetch, an advance status of `MZ_OK` continues the
loop (the row is prepended to whatever the rest of the run produces);
`MZ_END_OF_LIST` terminates the loop and the run returns success with all rows
preserved; any other status stops the run immediately (the trace tail is
ignored), preserves all rows already printed, and is returned as the
result. -/
theorem advance_status_handling (decode : Nat → Tm) (infos : List MzZipFile)
    (fi : MzZipFile) (rest : List Step) (c : Int) :
    (loopRun decode (Step.fetchOk fi MZ_OK :: rest) =
       (loopRun decode rest).map (fun p => (formatRow decode fi :: p.1, p.2))) ∧
    (list_zip_archive ⟨MZ_OK, okSteps infos ++ [Step.fetchOk fi MZ_END_OF_LIST], decode⟩ =
       some { output := headerLine1 :: headerLine2 :: (infos ++ [fi]).map (formatRow decode),
              ret := MZ_OK, readerDeleted := false }) ∧
    (c ≠ MZ_OK → c ≠ MZ_END_OF_LIST →
       list_zip_archive ⟨MZ_OK, okSteps infos ++ Step.fetchOk fi c :: rest, decode⟩ =
         some { output := headerLine1 :: headerLine2 ::
                            ((infos ++ [fi]).map (formatRow decode) ++ [errNextLine c]),
                ret := c, readerDeleted := false }) := by
  refine ⟨?_, ?_, ?_⟩
  · rw [loopRun, if_pos rfl]
  · rw [run_okSteps_then, loopRun, if_neg (by decide), if_pos rfl]
    simp [List.map_append]
  · intro h1 h2
    rw [run_okSteps_then, loopRun, if_neg h1, if_neg h2]
    simp only [Option.map_some', Option.some.injEq]
    rw [if_neg h2]
    simp [List.map_append]

/-- Witness for C8 at a concrete fatal advance status (-1). -/
theorem advance_status_handling_witness :
    list_zip_archive ⟨MZ_OK, okSteps [] ++ Step.fetchOk sampleEntry (-1) :: [], decodeZero⟩ =
      some { output := headerLine1 :: headerLine2 ::
                         (([] ++ [sampleEntry]).map (formatRow decodeZero) ++ [errNextLine (-1)]),
             ret := -1, readerDeleted := false } :=
  (advance_status_handling decodeZero [] sampleEntry [] (-1)).2.2 (by decide) (by decide)

end ZipReader
